import Mathlib

/-!
Verification of the parallel Game of Life core in `gol.c`.

The source program simulates Conway's Game of Life on a toroidal grid stored as
a flat row-major `char` array (`'@'` alive, `'-'` dead), with `num_threads`
worker threads each owning a contiguous inclusive row range.  Each generation
is a two-phase update: all workers first decide (into their own `change`
arrays) reading the shared grid, a barrier separates the phases, and then all
workers apply their decisions to their own grid ranges.  The barriers inside
`simulateLife` and `threadFunc` guarantee that every decision of a generation
is computed from the grid state at the start of that generation and that the
disjoint apply-phase writes of the workers do not overlap any read.

The embedding below renders the relevant C functions as Lean functions over
`Nat` and `List Char`.  All C `int` values appearing in the modelled
computations are non-negative on the domains stated by the theorems, so `Nat`
arithmetic coincides with the C `int` arithmetic there; C expressions of the
form `(x - 1 + m) % m` are written `(x + m - 1) % m` (the same integer value,
but well-defined in `Nat`).
-/

namespace Gol

/-- Configuration record read by `initEarth` from the configuration file
(struct `init_data` in `gol.c`). -/
structure init_data where
  num_rows : Nat
  num_cols : Nat
  iterations : Nat
  init_pairs : Nat

/-- Helper: the list `[f 0, f 1, ..., f (n-1)]`.  Used to express the contents
of a buffer of length `n` positionally. -/
def rangeMap (n : Nat) (f : Nat → Char) : List Char :=
  (List.range n).map f

/-- Right neighbor index from `neighbors` in `gol.c`:
`(row * num_cols) + ((col + 1) % num_cols)` with `col = index % num_cols`,
`row = index / num_cols`. -/
def r_index (bounds : init_data) (index : Nat) : Nat :=
  (index / bounds.num_cols) * bounds.num_cols +
    ((index % bounds.num_cols) + 1) % bounds.num_cols

/-- Left neighbor index from `neighbors` in `gol.c`:
`(row * num_cols) + (((col - 1) + num_cols) % num_cols)`. -/
def l_index (bounds : init_data) (index : Nat) : Nat :=
  (index / bounds.num_cols) * bounds.num_cols +
    ((index % bounds.num_cols) + bounds.num_cols - 1) % bounds.num_cols

/-- Lower neighbor index from `neighbors` in `gol.c`:
`(((row + 1) % num_rows) * num_cols) + col`. -/
def lower (bounds : init_data) (index : Nat) : Nat :=
  ((index / bounds.num_cols + 1) % bounds.num_rows) * bounds.num_cols +
    index % bounds.num_cols

/-- Upper neighbor index from `neighbors` in `gol.c`:
`((((row - 1) + num_rows) % num_rows) * num_cols) + col`. -/
def upper (bounds : init_data) (index : Nat) : Nat :=
  ((index / bounds.num_cols + bounds.num_rows - 1) % bounds.num_rows) * bounds.num_cols +
    index % bounds.num_cols

/-- Right-lower diagonal index from `neighbors` in `gol.c`:
`(lower / num_cols) * num_cols + ((lower % num_cols) + 1) % num_cols`. -/
def r_lower (bounds : init_data) (index : Nat) : Nat :=
  (lower bounds index / bounds.num_cols) * bounds.num_cols +
    ((lower bounds index % bounds.num_cols) + 1) % bounds.num_cols

/-- Left-lower diagonal index from `neighbors` in `gol.c`:
`(lower / num_cols) * num_cols + ((lower % num_cols) - 1 + num_cols) % num_cols`. -/
def l_lower (bounds : init_data) (index : Nat) : Nat :=
  (lower bounds index / bounds.num_cols) * bounds.num_cols +
    ((lower bounds index % bounds.num_cols) + bounds.num_cols - 1) % bounds.num_cols

/-- Right-upper diagonal index from `neighbors` in `gol.c`:
`(upper / num_cols) * num_cols + ((upper % num_cols) + 1) % num_cols`. -/
def r_upper (bounds : init_data) (index : Nat) : Nat :=
  (upper bounds index / bounds.num_cols) * bounds.num_cols +
    ((upper bounds index % bounds.num_cols) + 1) % bounds.num_cols

/-- Left-upper diagonal index from `neighbors` in `gol.c`:
`(upper / num_cols) * num_cols + ((upper % num_cols) - 1 + num_cols) % num_cols`. -/
def l_upper (bounds : init_data) (index : Nat) : Nat :=
  (upper bounds index / bounds.num_cols) * bounds.num_cols +
    ((upper bounds index % bounds.num_cols) + bounds.num_cols - 1) % bounds.num_cols

/-- The eight neighbor indices computed (and read from `earth`) by the
function `neighbors` in `gol.c`, in the order the source checks them. -/
def neighborIndices (bounds : init_data) (index : Nat) : List Nat :=
  [l_index bounds index, r_index bounds index,
   upper bounds index, l_upper bounds index, r_upper bounds index,
   lower bounds index, l_lower bounds index, r_lower bounds index]

/-- Live-neighbor count: function `neighbors` in `gol.c`.  Each occurrence of
`'@'` among the eight (not deduplicated) neighbor indices adds one. -/
def neighbors (earth : List Char) (index : Nat) (bounds : init_data) : Nat :=
  (if earth.getD (l_index bounds index) ' ' = '@' then 1 else 0) +
  (if earth.getD (r_index bounds index) ' ' = '@' then 1 else 0) +
  (if earth.getD (upper bounds index) ' ' = '@' then 1 else 0) +
  (if earth.getD (l_upper bounds index) ' ' = '@' then 1 else 0) +
  (if earth.getD (r_upper bounds index) ' ' = '@' then 1 else 0) +
  (if earth.getD (lower bounds index) ' ' = '@' then 1 else 0) +
  (if earth.getD (l_lower bounds index) ' ' = '@' then 1 else 0) +
  (if earth.getD (r_lower bounds index) ' ' = '@' then 1 else 0)

/-- Decision-phase mark for cell `i` written into the per-worker `change`
array by the first loop of `simulateLife` in `gol.c`: `-1` kill
(alive with `neighbors <= 1` or `>= 4`), `-2` revive (dead with exactly `3`
neighbors), `0` keep (the `calloc` initial value). -/
def change_of (earth : List Char) (bounds : init_data) (i : Nat) : Int :=
  if earth.getD i ' ' = '@' then
    if neighbors earth i bounds ≤ 1 then -1
    else if 4 ≤ neighbors earth i bounds then -1
    else 0
  else if earth.getD i ' ' = '-' then
    if neighbors earth i bounds = 3 then -2 else 0
  else 0

/-- Apply-phase result for cell `i` of a worker's own range, from the second
loop of `simulateLife` in `gol.c`: `change = -1` writes `'-'`, `change = -2`
writes `'@'`, otherwise the cell keeps the value it had at the start of the
generation (no other worker writes inside this worker's range). -/
def transitionCell (earth0 : List Char) (bounds : init_data) (i : Nat) : Char :=
  if change_of earth0 bounds i = -1 then '-'
  else if change_of earth0 bounds i = -2 then '@'
  else earth0.getD i ' '

/-- One worker's generation step: function `simulateLife` in `gol.c` for a
worker owning rows `row_s .. row_e` inclusive.  `earth0` is the shared grid as
it stands at the start of the generation (the state every decision-phase read
observes, by the barrier protocol), `earth` is the grid as already updated by
the apply phases of the workers folded before this one (their writes are
outside this worker's range).  The loop bounds are the source's
`start = row_start * num_cols` and `end = row_end * num_cols + num_cols - 1`,
iterated for `start <= i < end + 1`. -/
def simulateLife (earth0 earth : List Char) (bounds : init_data)
    (row_s row_e : Nat) : List Char :=
  rangeMap earth.length (fun j =>
    if row_s * bounds.num_cols ≤ j ∧
        j < row_e * bounds.num_cols + bounds.num_cols - 1 + 1 then
      transitionCell earth0 bounds j
    else earth.getD j ' ')

/-- Start row of worker `i`: the partition loop in `main` of `gol.c`.
`thread_data[0].row_start = 0`; `thread_data[i].row_start =
thread_data[i-1].row_end + 1` where `row_end` is the inlined expression of
`row_end` below. -/
def row_start (rows W : Nat) : Nat → Nat
  | 0 => 0
  | i + 1 =>
    (if i < rows % W then row_start rows W i + rows / W
     else row_start rows W i + rows / W - 1) + 1

/-- End row (inclusive) of worker `i`: the partition loop in `main` of
`gol.c`.  `row_end = row_start + rows / W` when `i < rows % W`, otherwise
`row_start + rows / W - 1`. -/
def row_end (rows W : Nat) (i : Nat) : Nat :=
  if i < rows % W then row_start rows W i + rows / W
  else row_start rows W i + rows / W - 1

/-- Number of rows owned by worker `i` (its inclusive range `[row_start,
row_end]`). -/
def rangeSize (rows W i : Nat) : Nat :=
  row_end rows W i - row_start rows W i + 1

/-- One full generation of the worker pool with `W` workers: every worker
decides from the same pre-generation grid `earth` and the apply phases write
the disjoint owned ranges (the fold order is irrelevant because the ranges are
disjoint; the fold composes the per-worker `simulateLife` effects). -/
def stepPool (bounds : init_data) (W : Nat) (earth : List Char) : List Char :=
  (List.range W).foldl
    (fun e i =>
      simulateLife earth e bounds
        (row_start bounds.num_rows W i) (row_end bounds.num_rows W i))
    earth

/-- The whole-grid generation step: every cell of the buffer is replaced by
its transition value computed from the pre-generation grid. -/
def fullStep (bounds : init_data) (earth : List Char) : List Char :=
  rangeMap earth.length (transitionCell earth bounds)

/-- The simulation after `n` generations: the iteration loop of `threadFunc`
in `gol.c` (each pass of the loop runs one barrier-synchronized
`simulateLife` generation in every worker). -/
def runGol (bounds : init_data) (W : Nat) (earth : List Char) : Nat → List Char
  | 0 => earth
  | n + 1 => stepPool bounds W (runGol bounds W earth n)

/-- Grid initialization: function `initEarth` in `gol.c`.  All cells start
dead (`'-'`); every configuration pair `(col, row)` sets index
`num_cols * row + col` alive.  The source performs no range validation on the
pairs; in the C code an out-of-range pair writes outside the allocated buffer,
which the list model renders as `List.set` (a no-op out of range). -/
def initEarth (bounds : init_data) (pairs : List (Nat × Nat)) : List Char :=
  pairs.foldl (fun e p => e.set (bounds.num_cols * p.2 + p.1) '@')
    (List.replicate (bounds.num_rows * bounds.num_cols) '-')

/-- Arguments of every `printEarth` reporter invocation during a run, from
`threadFunc` in `gol.c`: only thread 0 in verbose mode calls `printEarth`,
once per iteration `i`, after the generation's apply phase (so on the grid
after `i + 1` generations), passing `i` as the iteration argument. -/
def printEarthCalls (bounds : init_data) (W : Nat) (earth : List Char)
    (verbose : Bool) : List (List Char × Nat) :=
  if verbose then
    (List.range bounds.iterations).map (fun i => (runGol bounds W earth (i + 1), i))
  else []

/-- Fields printed by the per-thread partition diagnostic in `threadFunc` of
`gol.c`: `printf("Thread %d:\t %d:%d\t(%d)\n", tid, row_start, row_end,
row_end - row_start)`. -/
def threadDiag (rows W tid : Nat) : Nat × Nat × Nat × Nat :=
  (tid, row_start rows W tid, row_end rows W tid,
   row_end rows W tid - row_start rows W tid)

/-- Modelled from the spec: the eight neighbor offsets
`{-1,0,1} x {-1,0,1}` minus `(0,0)`, listed in lexicographic order. -/
def neighborOffsets : List (Int × Int) :=
  [(-1, -1), (-1, 0), (-1, 1), (0, -1), (0, 1), (1, -1), (1, 0), (1, 1)]

/-- Modelled from the spec: the linear index of the wrapped position
`(r mod rows, c mod cols)` (mathematical modulus, also for negative
arguments). -/
def wrapIdx (bounds : init_data) (r c : Int) : Nat :=
  (r % (bounds.num_rows : Int)).toNat * bounds.num_cols +
    (c % (bounds.num_cols : Int)).toNat

/-- Modelled from the spec: the live-cell count over the multiset
`{(r+dr mod rows, c+dc mod cols) : (dr,dc) in {-1,0,1}^2 minus {(0,0)}}`,
counted with multiplicity. -/
def specNeighborCount (earth : List Char) (bounds : init_data) (r c : Nat) : Nat :=
  (neighborOffsets.map (fun d =>
    if earth.getD (wrapIdx bounds ((r : Int) + d.1) ((c : Int) + d.2)) ' ' = '@'
    then 1 else 0)).sum

/-- Configuration of scenario S1 (the blinker): `rows=5, cols=5,
iterations=2`, three initial pairs. -/
def blinkBounds : init_data := ⟨5, 5, 2, 3⟩

/-- Initial grid of scenario S1: live cells `(1,2), (2,2), (3,2)` as
`(col,row)` pairs. -/
def blinkEarth : List Char := initEarth blinkBounds [(1, 2), (2, 2), (3, 2)]

/-! ### Helper lemmas about buffers -/

lemma rangeMap_length (n : Nat) (f : Nat → Char) : (rangeMap n f).length = n := by
  simp [rangeMap]

lemma rangeMap_getD (n : Nat) (f : Nat → Char) (j : Nat) (h : j < n) :
    (rangeMap n f).getD j ' ' = f j := by
  unfold rangeMap
  rw [List.getD_eq_getElem?_getD]
  simp [List.getElem?_map, List.getElem?_range, h]

lemma rangeMap_getD_of_ge (n : Nat) (f : Nat → Char) (j : Nat) (h : n ≤ j) :
    (rangeMap n f).getD j ' ' = ' ' :=
  List.getD_eq_default _ _ (by simpa [rangeMap_length] using h)

lemma eq_rangeMap_self (l : List Char) :
    l = rangeMap l.length (fun j => l.getD j ' ') := by
  apply List.ext_getElem
  · simp [rangeMap_length]
  · intro i h1 h2
    unfold rangeMap
    rw [List.getElem_map, List.getElem_range]
    simp [List.getD_eq_getElem?_getD, List.getElem?_eq_getElem, h1]

lemma rangeMap_congr {n : Nat} {f g : Nat → Char} (h : ∀ j, j < n → f j = g j) :
    rangeMap n f = rangeMap n g := by
  unfold rangeMap
  apply List.map_congr_left
  intro a ha
  exact h a (List.mem_range.mp ha)

/-! ### Helper lemmas about wrap arithmetic -/

lemma toNat_natCast_mod (m n : Nat) : (((m : Int)) % (n : Int)).toNat = m % n := by
  rw [← Int.natCast_mod]
  omega

lemma toNat_emod_self (a n : Nat) (h : a < n) : (((a : Int)) % (n : Int)).toNat = a := by
  rw [toNat_natCast_mod, Nat.mod_eq_of_lt h]

lemma toNat_emod_add_one (a n : Nat) :
    ((((a : Int) + 1) % (n : Int)).toNat) = (a + 1) % n := by
  have h1 : ((a : Int) + 1) = ((a + 1 : Nat) : Int) := by push_cast; ring
  rw [h1, toNat_natCast_mod]

lemma toNat_emod_sub_one (a n : Nat) (h0 : 0 < n) :
    ((((a : Int) - 1) % (n : Int)).toNat) = (a + n - 1) % n := by
  have h1 : ((a : Int) - 1) % (n : Int) = ((a : Int) - 1 + n) % n := by
    conv_rhs => rw [Int.add_emod, Int.emod_self]
    simp [Int.emod_emod_of_dvd]
  have h3 : 1 ≤ a + n := by omega
  have h2 : (a : Int) - 1 + n = ((a + n - 1 : Nat) : Int) := by
    push_cast [h3]
    ring
  rw [h1, h2, toNat_natCast_mod]

lemma mul_add_div_lt (x c n : Nat) (h : c < n) : (x * n + c) / n = x := by
  rw [Nat.add_comm, Nat.add_mul_div_right _ _ (by omega : 0 < n), Nat.div_eq_of_lt h]
  omega

lemma mul_add_mod_lt (x c n : Nat) (h : c < n) : (x * n + c) % n = c := by
  rw [Nat.add_comm, Nat.add_mul_mod_self_right, Nat.mod_eq_of_lt h]

lemma idx_lt {x y rows cols : Nat} (hx : x < rows) (hy : y < cols) :
    x * cols + y < rows * cols := by
  have h1 : (x + 1) * cols ≤ rows * cols := Nat.mul_le_mul_right _ hx
  have h2 : x * cols + y < (x + 1) * cols := by
    rw [Nat.succ_mul]
    omega
  exact lt_of_lt_of_le h2 h1

/-! ### Normal forms of the diagonal neighbor indices -/

lemma r_lower_eq (bounds : init_data) (index : Nat) (hc : 1 ≤ bounds.num_cols) :
    r_lower bounds index =
      ((index / bounds.num_cols + 1) % bounds.num_rows) * bounds.num_cols +
        ((index % bounds.num_cols) + 1) % bounds.num_cols := by
  have hm : index % bounds.num_cols < bounds.num_cols := Nat.mod_lt _ (by omega)
  unfold r_lower lower
  rw [mul_add_div_lt _ _ _ hm, mul_add_mod_lt _ _ _ hm]

lemma l_lower_eq (bounds : init_data) (index : Nat) (hc : 1 ≤ bounds.num_cols) :
    l_lower bounds index =
      ((index / bounds.num_cols + 1) % bounds.num_rows) * bounds.num_cols +
        ((index % bounds.num_cols) + bounds.num_cols - 1) % bounds.num_cols := by
  have hm : index % bounds.num_cols < bounds.num_cols := Nat.mod_lt _ (by omega)
  unfold l_lower lower
  rw [mul_add_div_lt _ _ _ hm, mul_add_mod_lt _ _ _ hm]

lemma r_upper_eq (bounds : init_data) (index : Nat) (hc : 1 ≤ bounds.num_cols) :
    r_upper bounds index =
      ((index / bounds.num_cols + bounds.num_rows - 1) % bounds.num_rows) * bounds.num_cols +
        ((index % bounds.num_cols) + 1) % bounds.num_cols := by
  have hm : index % bounds.num_cols < bounds.num_cols := Nat.mod_lt _ (by omega)
  unfold r_upper upper
  rw [mul_add_div_lt _ _ _ hm, mul_add_mod_lt _ _ _ hm]

lemma l_upper_eq (bounds : init_data) (index : Nat) (hc : 1 ≤ bounds.num_cols) :
    l_upper bounds index =
      ((index / bounds.num_cols + bounds.num_rows - 1) % bounds.num_rows) * bounds.num_cols +
        ((index % bounds.num_cols) + bounds.num_cols - 1) % bounds.num_cols := by
  have hm : index % bounds.num_cols < bounds.num_cols := Nat.mod_lt _ (by omega)
  unfold l_upper upper
  rw [mul_add_div_lt _ _ _ hm, mul_add_mod_lt _ _ _ hm]

/-! ### Partition lemmas -/

lemma one_le_div {rows W : Nat} (hW : 1 ≤ W) (hWr : W ≤ rows) : 1 ≤ rows / W :=
  (Nat.one_le_div_iff (by omega)).mpr hWr

lemma row_start_succ (rows W i : Nat) :
    row_start rows W (i + 1) = row_end rows W i + 1 := rfl

lemma row_start_le_row_end {rows W : Nat} (hq : 1 ≤ rows / W) (i : Nat) :
    row_start rows W i ≤ row_end rows W i := by
  unfold row_end
  split <;> omega

lemma row_start_closed {rows W : Nat} (hq : 1 ≤ rows / W) (i : Nat) :
    row_start rows W i = i * (rows / W) + min i (rows % W) := by
  induction i with
  | zero => simp [row_start]
  | succ i ih =>
    show (if i < rows % W then row_start rows W i + rows / W
          else row_start rows W i + rows / W - 1) + 1 = _
    rw [ih]
    rcases Nat.lt_or_ge i (rows % W) with h | h
    · rw [if_pos h, Nat.min_eq_left (Nat.le_of_lt h),
        Nat.min_eq_left (by omega), Nat.succ_mul]
      ring
    · rw [if_neg (by omega), Nat.min_eq_right h, Nat.min_eq_right (by omega),
        Nat.succ_mul]
      omega

lemma row_start_rows {rows W : Nat} (hW : 1 ≤ W) (hWr : W ≤ rows) :
    row_start rows W W = rows := by
  rw [row_start_closed (one_le_div hW hWr)]
  have h1 : rows % W < W := Nat.mod_lt _ (by omega)
  rw [Nat.min_eq_right (le_of_lt h1)]
  exact Nat.div_add_mod rows W

lemma row_start_lt_succ {rows W : Nat} (hq : 1 ≤ rows / W) (i : Nat) :
    row_start rows W i < row_start rows W (i + 1) := by
  rw [row_start_succ]
  have h := row_start_le_row_end hq i
  omega

lemma row_start_mono {rows W : Nat} (hq : 1 ≤ rows / W) {i j : Nat} (h : i ≤ j) :
    row_start rows W i ≤ row_start rows W j := by
  induction j with
  | zero => simp_all
  | succ j ih =>
    rcases Nat.eq_or_lt_of_le h with heq | hlt
    · rw [heq]
    · exact le_trans (ih (by omega)) (le_of_lt (row_start_lt_succ hq j))

lemma cover_aux {rows W : Nat} (hq : 1 ≤ rows / W) :
    ∀ k rr, rr < row_start rows W k →
      ∃ i, i < k ∧ row_start rows W i ≤ rr ∧ rr ≤ row_end rows W i := by
  intro k
  induction k with
  | zero => intro rr h; simp [row_start] at h
  | succ k ih =>
    intro rr h
    by_cases h2 : rr < row_start rows W k
    · obtain ⟨i, hi, h3, h4⟩ := ih rr h2
      exact ⟨i, Nat.lt_succ_of_lt hi, h3, h4⟩
    · refine ⟨k, Nat.lt_succ_self k, Nat.le_of_not_lt h2, ?_⟩
      rw [row_start_succ] at h
      omega

lemma ranges_ordered {rows W : Nat} (hq : 1 ≤ rows / W) {i j : Nat} (h : i < j) :
    row_end rows W i < row_start rows W j := by
  have h1 : row_start rows W (i + 1) ≤ row_start rows W j := row_start_mono hq h
  rw [row_start_succ] at h1
  omega

lemma rangeSize_eq {rows W : Nat} (hq : 1 ≤ rows / W) (i : Nat) :
    rangeSize rows W i = rows / W + (if i < rows % W then 1 else 0) := by
  unfold rangeSize row_end
  split <;> omega

lemma ceil_div_eq {rows W : Nat} (hW : 1 ≤ W) (hr : 1 ≤ rows % W) :
    (rows + W - 1) / W = rows / W + 1 := by
  have h2 := Nat.div_add_mod rows W
  have h3 : rows % W < W := Nat.mod_lt _ (by omega)
  have h5 : W * (rows / W + 1) = W * (rows / W) + W := by ring
  have h4 : rows + W - 1 = W * (rows / W + 1) + (rows % W - 1) := by
    rw [h5]
    omega
  rw [h4, Nat.mul_add_div (show 0 < W by omega),
    Nat.div_eq_of_lt (show rows % W - 1 < W by omega)]

/-- C1: for every `rows ≥ 1` and `1 ≤ W ≤ rows`, the row partition computed
by the initialization loop of `main` is a pairwise-disjoint cover of
`[0, rows)`: every range is non-empty, any two range sizes differ by at most
one, and the first `rows % W` workers receive the larger size
`⌈rows/W⌉ = (rows + W - 1) / W`; in particular `rows = 10`, `W = 3` yields
the inclusive ranges `[0..3], [4..6], [7..9]` of sizes `4, 3, 3`. -/
theorem partition_disjoint_cover (rows W : Nat)
    (hR : 1 ≤ rows) (hW : 1 ≤ W) (hWr : W ≤ rows) :
    (∀ i, i < W → row_start rows W i ≤ row_end rows W i) ∧
    (∀ rr, rr < rows →
      ∃! i, i < W ∧ row_start rows W i ≤ rr ∧ rr ≤ row_end rows W i) ∧
    (∀ i, i < W → ∀ j, j < W →
      rangeSize rows W i ≤ rangeSize rows W j + 1) ∧
    (∀ i, i < rows % W → rangeSize rows W i = (rows + W - 1) / W) ∧
    (row_start 10 3 0 = 0 ∧ row_end 10 3 0 = 3 ∧
     row_start 10 3 1 = 4 ∧ row_end 10 3 1 = 6 ∧
     row_start 10 3 2 = 7 ∧ row_end 10 3 2 = 9 ∧
     rangeSize 10 3 0 = 4 ∧ rangeSize 10 3 1 = 3 ∧ rangeSize 10 3 2 = 3) := by
  have hq : 1 ≤ rows / W := one_le_div hW hWr
  refine ⟨fun i _ => row_start_le_row_end hq i, ?_, ?_, ?_, by decide⟩
  · intro rr hrr
    have hcov : rr < row_start rows W W := by rw [row_start_rows hW hWr]; exact hrr
    obtain ⟨i, hi, h1, h2⟩ := cover_aux hq W rr hcov
    refine ⟨i, ⟨hi, h1, h2⟩, ?_⟩
    rintro j ⟨hj, h3, h4⟩
    by_contra hne
    rcases Nat.lt_or_ge j i with hlt | hge
    · have := ranges_ordered hq hlt
      omega
    · have hlt : i < j := by omega
      have := ranges_ordered hq hlt
      omega
  · intro i _ j _
    rw [rangeSize_eq hq, rangeSize_eq hq]
    split <;> split <;> omega
  · intro i hi
    have hr1 : 1 ≤ rows % W := by omega
    rw [rangeSize_eq hq, if_pos hi, ceil_div_eq hW hr1]

/-- C1 witness: the partition theorem instantiated at `rows = 10`, `W = 3`. -/
theorem partition_disjoint_cover_witness :
    1 ≤ 10 ∧ 1 ≤ 3 ∧ 3 ≤ 10 ∧
    ((∀ i, i < 3 → row_start 10 3 i ≤ row_end 10 3 i) ∧
     (∀ rr, rr < 10 →
       ∃! i, i < 3 ∧ row_start 10 3 i ≤ rr ∧ rr ≤ row_end 10 3 i) ∧
     (∀ i, i < 3 → ∀ j, j < 3 →
       rangeSize 10 3 i ≤ rangeSize 10 3 j + 1) ∧
     (∀ i, i < 10 % 3 → rangeSize 10 3 i = (10 + 3 - 1) / 3) ∧
     (row_start 10 3 0 = 0 ∧ row_end 10 3 0 = 3 ∧
      row_start 10 3 1 = 4 ∧ row_end 10 3 1 = 6 ∧
      row_start 10 3 2 = 7 ∧ row_end 10 3 2 = 9 ∧
      rangeSize 10 3 0 = 4 ∧ rangeSize 10 3 1 = 3 ∧ rangeSize 10 3 2 = 3)) :=
  ⟨by omega, by omega, by omega,
   partition_disjoint_cover 10 3 (by omega) (by omega) (by omega)⟩

/-! ### Neighbor count: code vs the multiset specification -/

lemma ite_live_le_one (earth : List Char) (k : Nat) :
    (if earth.getD k ' ' = '@' then (1 : Nat) else 0) ≤ 1 := by
  split <;> omega

lemma neighbors_le_eight (earth : List Char) (index : Nat) (bounds : init_data) :
    neighbors earth index bounds ≤ 8 := by
  unfold neighbors
  have h1 := ite_live_le_one earth (l_index bounds index)
  have h2 := ite_live_le_one earth (r_index bounds index)
  have h3 := ite_live_le_one earth (upper bounds index)
  have h4 := ite_live_le_one earth (l_upper bounds index)
  have h5 := ite_live_le_one earth (r_upper bounds index)
  have h6 := ite_live_le_one earth (lower bounds index)
  have h7 := ite_live_le_one earth (l_lower bounds index)
  have h8 := ite_live_le_one earth (r_lower bounds index)
  omega

/-- C2: for every grid with `rows ≥ 1`, `cols ≥ 1` and every in-range cell
index, the live-neighbor count returned by `neighbors` equals the number of
live cells in the multiset
`{((r+dr) mod rows, (c+dc) mod cols) : (dr,dc) ∈ {-1,0,1}² \ {(0,0)}}`
(counted with multiplicity, without deduplication), and the result lies in
`[0, 8]`. -/
theorem neighbors_eq_multiset (earth : List Char) (bounds : init_data)
    (index : Nat)
    (hr : 1 ≤ bounds.num_rows) (hc : 1 ≤ bounds.num_cols)
    (hi : index < bounds.num_rows * bounds.num_cols) :
    neighbors earth index bounds =
      specNeighborCount earth bounds (index / bounds.num_cols)
        (index % bounds.num_cols) ∧
    neighbors earth index bounds ≤ 8 := by
  have hr0 : 0 < bounds.num_rows := by omega
  have hc0 : 0 < bounds.num_cols := by omega
  have hrow : index / bounds.num_cols < bounds.num_rows :=
    (Nat.div_lt_iff_lt_mul hc0).mpr hi
  have hcol : index % bounds.num_cols < bounds.num_cols := Nat.mod_lt _ hc0
  refine ⟨?_, neighbors_le_eight earth index bounds⟩
  have e1 : wrapIdx bounds ((↑(index / bounds.num_cols) : Int) + (-1))
      ((↑(index % bounds.num_cols) : Int) + (-1)) = l_upper bounds index := by
    unfold wrapIdx
    rw [(by ring : ((↑(index / bounds.num_cols) : Int) + (-1)) =
          (↑(index / bounds.num_cols) : Int) - 1),
      (by ring : ((↑(index % bounds.num_cols) : Int) + (-1)) =
          (↑(index % bounds.num_cols) : Int) - 1),
      toNat_emod_sub_one _ _ hr0, toNat_emod_sub_one _ _ hc0,
      l_upper_eq bounds index hc]
  have e2 : wrapIdx bounds ((↑(index / bounds.num_cols) : Int) + (-1))
      ((↑(index % bounds.num_cols) : Int) + 0) = upper bounds index := by
    unfold wrapIdx upper
    rw [(by ring : ((↑(index / bounds.num_cols) : Int) + (-1)) =
          (↑(index / bounds.num_cols) : Int) - 1),
      (by ring : ((↑(index % bounds.num_cols) : Int) + 0) =
          (↑(index % bounds.num_cols) : Int)),
      toNat_emod_sub_one _ _ hr0, toNat_emod_self _ _ hcol]
  have e3 : wrapIdx bounds ((↑(index / bounds.num_cols) : Int) + (-1))
      ((↑(index % bounds.num_cols) : Int) + 1) = r_upper bounds index := by
    unfold wrapIdx
    rw [(by ring : ((↑(index / bounds.num_cols) : Int) + (-1)) =
          (↑(index / bounds.num_cols) : Int) - 1),
      toNat_emod_sub_one _ _ hr0, toNat_emod_add_one,
      r_upper_eq bounds index hc]
  have e4 : wrapIdx bounds ((↑(index / bounds.num_cols) : Int) + 0)
      ((↑(index % bounds.num_cols) : Int) + (-1)) = l_index bounds index := by
    unfold wrapIdx l_index
    rw [(by ring : ((↑(index / bounds.num_cols) : Int) + 0) =
          (↑(index / bounds.num_cols) : Int)),
      (by ring : ((↑(index % bounds.num_cols) : Int) + (-1)) =
          (↑(index % bounds.num_cols) : Int) - 1),
      toNat_emod_self _ _ hrow, toNat_emod_sub_one _ _ hc0]
  have e5 : wrapIdx bounds ((↑(index / bounds.num_cols) : Int) + 0)
      ((↑(index % bounds.num_cols) : Int) + 1) = r_index bounds index := by
    unfold wrapIdx r_index
    rw [(by ring : ((↑(index / bounds.num_cols) : Int) + 0) =
          (↑(index / bounds.num_cols) : Int)),
      toNat_emod_self _ _ hrow, toNat_emod_add_one]
  have e6 : wrapIdx bounds ((↑(index / bounds.num_cols) : Int) + 1)
      ((↑(index % bounds.num_cols) : Int) + (-1)) = l_lower bounds index := by
    unfold wrapIdx
    rw [(by ring : ((↑(index % bounds.num_cols) : Int) + (-1)) =
          (↑(index % bounds.num_cols) : Int) - 1),
      toNat_emod_add_one, toNat_emod_sub_one _ _ hc0,
      l_lower_eq bounds index hc]
  have e7 : wrapIdx bounds ((↑(index / bounds.num_cols) : Int) + 1)
      ((↑(index % bounds.num_cols) : Int) + 0) = lower bounds index := by
    unfold wrapIdx lower
    rw [(by ring : ((↑(index % bounds.num_cols) : Int) + 0) =
          (↑(index % bounds.num_cols) : Int)),
      toNat_emod_add_one, toNat_emod_self _ _ hcol]
  have e8 : wrapIdx bounds ((↑(index / bounds.num_cols) : Int) + 1)
      ((↑(index % bounds.num_cols) : Int) + 1) = r_lower bounds index := by
    unfold wrapIdx
    rw [toNat_emod_add_one, toNat_emod_add_one, r_lower_eq bounds index hc]
  simp only [specNeighborCount, neighborOffsets, List.map_cons, List.map_nil,
    List.sum_cons, List.sum_nil]
  rw [e1, e2, e3, e4, e5, e6, e7, e8]
  unfold neighbors
  ring

/-- C2 witness: the neighbor-count theorem instantiated on the blinker grid at
cell index 12 (the grid center). -/
theorem neighbors_eq_multiset_witness :
    1 ≤ blinkBounds.num_rows ∧ 1 ≤ blinkBounds.num_cols ∧
    12 < blinkBounds.num_rows * blinkBounds.num_cols ∧
    (neighbors blinkEarth 12 blinkBounds =
      specNeighborCount blinkEarth blinkBounds (12 / blinkBounds.num_cols)
        (12 % blinkBounds.num_cols) ∧
     neighbors blinkEarth 12 blinkBounds ≤ 8) :=
  ⟨by decide, by decide, by decide,
   neighbors_eq_multiset blinkEarth blinkBounds 12 (by decide) (by decide)
     (by decide)⟩

/-- C10: for every grid with `rows ≥ 1`, `cols ≥ 1` and every index in
`[0, rows·cols)`, all eight neighbor indices computed by `neighbors` (left,
right, upper, lower and the four diagonals) lie in `[0, rows·cols)`, so every
grid access of `neighbors` is in bounds. -/
theorem neighborIndices_in_bounds (bounds : init_data) (index : Nat)
    (hr : 1 ≤ bounds.num_rows) (hc : 1 ≤ bounds.num_cols)
    (hi : index < bounds.num_rows * bounds.num_cols) :
    ∀ k ∈ neighborIndices bounds index,
      k < bounds.num_rows * bounds.num_cols := by
  have hr0 : 0 < bounds.num_rows := by omega
  have hc0 : 0 < bounds.num_cols := by omega
  have hrow : index / bounds.num_cols < bounds.num_rows :=
    (Nat.div_lt_iff_lt_mul hc0).mpr hi
  intro k hk
  simp only [neighborIndices, List.mem_cons, List.not_mem_nil, or_false] at hk
  rcases hk with rfl | rfl | rfl | rfl | rfl | rfl | rfl | rfl
  · exact idx_lt hrow (Nat.mod_lt _ hc0)
  · exact idx_lt hrow (Nat.mod_lt _ hc0)
  · exact idx_lt (Nat.mod_lt _ hr0) (Nat.mod_lt _ hc0)
  · rw [l_upper_eq bounds index hc]
    exact idx_lt (Nat.mod_lt _ hr0) (Nat.mod_lt _ hc0)
  · rw [r_upper_eq bounds index hc]
    exact idx_lt (Nat.mod_lt _ hr0) (Nat.mod_lt _ hc0)
  · exact idx_lt (Nat.mod_lt _ hr0) (Nat.mod_lt _ hc0)
  · rw [l_lower_eq bounds index hc]
    exact idx_lt (Nat.mod_lt _ hr0) (Nat.mod_lt _ hc0)
  · rw [r_lower_eq bounds index hc]
    exact idx_lt (Nat.mod_lt _ hr0) (Nat.mod_lt _ hc0)

/-- C10 witness: the bound theorem instantiated on the blinker configuration
at cell index 0, checked at the first neighbor index. -/
theorem neighborIndices_in_bounds_witness :
    1 ≤ blinkBounds.num_rows ∧ 1 ≤ blinkBounds.num_cols ∧
    0 < blinkBounds.num_rows * blinkBounds.num_cols ∧
    l_index blinkBounds 0 ∈ neighborIndices blinkBounds 0 ∧
    l_index blinkBounds 0 < blinkBounds.num_rows * blinkBounds.num_cols :=
  ⟨by decide, by decide, by decide, by decide,
   neighborIndices_in_bounds blinkBounds 0 (by decide) (by decide) (by decide)
     (l_index blinkBounds 0) (by decide)⟩

/-! ### One generation of the pool equals the whole-grid step -/

lemma simulateLife_length (earth0 earth : List Char) (bounds : init_data)
    (rs re : Nat) :
    (simulateLife earth0 earth bounds rs re).length = earth.length := by
  simp [simulateLife, rangeMap_length]

lemma foldl_length_invariant {f : List Char → Nat → List Char}
    (hf : ∀ e i, (f e i).length = e.length) :
    ∀ (l : List Nat) (e : List Char), (l.foldl f e).length = e.length := by
  intro l
  induction l with
  | nil => intro e; rfl
  | cons a l ih => intro e; rw [List.foldl_cons, ih, hf]

lemma stepPool_length (bounds : init_data) (W : Nat) (earth : List Char) :
    (stepPool bounds W earth).length = earth.length :=
  foldl_length_invariant (fun e i => simulateLife_length earth e bounds _ _)
    (List.range W) earth

lemma runGol_length (bounds : init_data) (W : Nat) (earth : List Char)
    (n : Nat) : (runGol bounds W earth n).length = earth.length := by
  induction n with
  | zero => rfl
  | succ n ih => rw [runGol, stepPool_length, ih]

lemma stepPool_aux (bounds : init_data) (W : Nat) (earth : List Char)
    (hq : 1 ≤ bounds.num_rows / W) (hc : 1 ≤ bounds.num_cols)
    (he : earth.length = bounds.num_rows * bounds.num_cols) (k : Nat) :
    (List.range k).foldl
      (fun e i => simulateLife earth e bounds
        (row_start bounds.num_rows W i) (row_end bounds.num_rows W i)) earth =
    rangeMap (bounds.num_rows * bounds.num_cols)
      (fun j => if j < row_start bounds.num_rows W k * bounds.num_cols
        then transitionCell earth bounds j else earth.getD j ' ') := by
  induction k with
  | zero =>
    simp only [List.range_zero, List.foldl_nil]
    rw [← he]
    conv_lhs => rw [eq_rangeMap_self earth]
    apply rangeMap_congr
    intro j hj
    have h0 : row_start bounds.num_rows W 0 * bounds.num_cols = 0 := by
      simp [row_start]
    rw [h0]
    simp
  | succ k ih =>
    rw [List.range_succ, List.foldl_append, ih, List.foldl_cons, List.foldl_nil]
    unfold simulateLife
    rw [rangeMap_length]
    apply rangeMap_congr
    intro j hj
    rw [rangeMap_getD _ _ _ hj]
    have h1 : row_start bounds.num_rows W (k + 1) * bounds.num_cols =
        row_end bounds.num_rows W k * bounds.num_cols + bounds.num_cols := by
      rw [row_start_succ, Nat.succ_mul]
    have h2 : row_start bounds.num_rows W k * bounds.num_cols ≤
        row_end bounds.num_rows W k * bounds.num_cols :=
      Nat.mul_le_mul_right _ (row_start_le_row_end hq k)
    split_ifs <;> first | rfl | (exfalso; omega)

lemma stepPool_eq_fullStep (bounds : init_data) (W : Nat) (earth : List Char)
    (hW : 1 ≤ W) (hWr : W ≤ bounds.num_rows) (hc : 1 ≤ bounds.num_cols)
    (he : earth.length = bounds.num_rows * bounds.num_cols) :
    stepPool bounds W earth = fullStep bounds earth := by
  have hq : 1 ≤ bounds.num_rows / W := one_le_div hW hWr
  unfold stepPool
  rw [stepPool_aux bounds W earth hq hc he W]
  unfold fullStep
  rw [he]
  apply rangeMap_congr
  intro j hj
  rw [if_pos]
  rw [row_start_rows hW hWr]
  exact hj

lemma runGol_eq_one (bounds : init_data) (earth : List Char) (W : Nat)
    (hc : 1 ≤ bounds.num_cols) (hW : 1 ≤ W) (hWr : W ≤ bounds.num_rows)
    (he : earth.length = bounds.num_rows * bounds.num_cols) (n : Nat) :
    runGol bounds W earth n = runGol bounds 1 earth n := by
  have hR : 1 ≤ bounds.num_rows := by omega
  induction n with
  | zero => rfl
  | succ n ih =>
    have heW : (runGol bounds W earth n).length =
        bounds.num_rows * bounds.num_cols := by rw [runGol_length, he]
    have he1 : (runGol bounds 1 earth n).length =
        bounds.num_rows * bounds.num_cols := by rw [runGol_length, he]
    rw [runGol, runGol, stepPool_eq_fullStep bounds W _ hW hWr hc heW,
      stepPool_eq_fullStep bounds 1 _ (by omega) hR hc he1, ih]

/-- C4: for the same configuration and any two valid worker counts
`W₁, W₂` with `1 ≤ Wᵢ ≤ rows`, the grid contents after every generation are
identical; in particular the result for any valid `W` equals the
single-threaded `W = 1` result. -/
theorem gol_deterministic_across_W (bounds : init_data) (earth : List Char)
    (W1 W2 : Nat) (hc : 1 ≤ bounds.num_cols)
    (h11 : 1 ≤ W1) (h12 : W1 ≤ bounds.num_rows)
    (h21 : 1 ≤ W2) (h22 : W2 ≤ bounds.num_rows)
    (he : earth.length = bounds.num_rows * bounds.num_cols) (n : Nat) :
    runGol bounds W1 earth n = runGol bounds W2 earth n ∧
    runGol bounds W1 earth n = runGol bounds 1 earth n := by
  have hone := runGol_eq_one bounds earth W1 hc h11 h12 he n
  have htwo := runGol_eq_one bounds earth W2 hc h21 h22 he n
  exact ⟨hone.trans htwo.symm, hone⟩

/-- C4 witness: determinism instantiated on the blinker configuration with
`W₁ = 3`, `W₂ = 2` after 2 generations. -/
theorem gol_deterministic_across_W_witness :
    1 ≤ blinkBounds.num_cols ∧ 1 ≤ 3 ∧ 3 ≤ blinkBounds.num_rows ∧
    1 ≤ 2 ∧ 2 ≤ blinkBounds.num_rows ∧
    blinkEarth.length = blinkBounds.num_rows * blinkBounds.num_cols ∧
    (runGol blinkBounds 3 blinkEarth 2 = runGol blinkBounds 2 blinkEarth 2 ∧
     runGol blinkBounds 3 blinkEarth 2 = runGol blinkBounds 1 blinkEarth 2) :=
  ⟨by decide, by decide, by decide, by decide, by decide, by decide,
   gol_deterministic_across_W blinkBounds blinkEarth 3 2 (by decide)
     (by decide) (by decide) (by decide) (by decide) (by decide) 2⟩

/-! ### Per-cell transition rules -/

lemma change_of_live_kill {earth : List Char} {bounds : init_data} {i : Nat}
    (h : earth.getD i ' ' = '@')
    (hn : neighbors earth i bounds ≤ 1 ∨ 4 ≤ neighbors earth i bounds) :
    change_of earth bounds i = -1 := by
  unfold change_of
  rw [h, if_pos (rfl : ('@' : Char) = '@')]
  rcases hn with hn | hn
  · rw [if_pos hn]
  · rw [if_neg (by omega), if_pos hn]

lemma change_of_live_keep {earth : List Char} {bounds : init_data} {i : Nat}
    (h : earth.getD i ' ' = '@')
    (hn1 : ¬ neighbors earth i bounds ≤ 1)
    (hn2 : ¬ 4 ≤ neighbors earth i bounds) :
    change_of earth bounds i = 0 := by
  unfold change_of
  rw [h, if_pos (rfl : ('@' : Char) = '@'), if_neg hn1, if_neg hn2]

lemma change_of_dead {earth : List Char} {bounds : init_data} {i : Nat}
    (h : earth.getD i ' ' = '-') :
    change_of earth bounds i =
      if neighbors earth i bounds = 3 then -2 else 0 := by
  unfold change_of
  rw [h, if_neg (by decide : ¬ ('-' : Char) = '@'),
    if_pos (rfl : ('-' : Char) = '-')]

lemma simulateLife_getD_in (bounds : init_data) (earth0 earth : List Char)
    (rs re j : Nat) (hc : 1 ≤ bounds.num_cols)
    (hj1 : rs * bounds.num_cols ≤ j) (hj2 : j < (re + 1) * bounds.num_cols)
    (hjlen : j < earth.length) :
    (simulateLife earth0 earth bounds rs re).getD j ' ' =
      transitionCell earth0 bounds j := by
  unfold simulateLife
  rw [rangeMap_getD _ _ _ hjlen, if_pos]
  have hmul : (re + 1) * bounds.num_cols =
      re * bounds.num_cols + bounds.num_cols := Nat.succ_mul re _
  exact ⟨hj1, by omega⟩

/-- C3: for every cell in a worker's row range, one generation step applies
exactly the source's transition rules evaluated on the pre-generation grid
`earth0`: a live cell with neighbor count `n ≤ 1` or `n ≥ 4` becomes dead, a
live cell with `n ∈ {2,3}` stays alive, a dead cell with `n = 3` becomes
alive, and every other dead cell stays dead. -/
theorem simulateLife_transition (bounds : init_data) (earth0 earth : List Char)
    (rs re j : Nat) (hc : 1 ≤ bounds.num_cols)
    (hj1 : rs * bounds.num_cols ≤ j) (hj2 : j < (re + 1) * bounds.num_cols)
    (hjlen : j < earth.length) :
    (earth0.getD j ' ' = '@' ∧
        (neighbors earth0 j bounds ≤ 1 ∨ 4 ≤ neighbors earth0 j bounds) →
      (simulateLife earth0 earth bounds rs re).getD j ' ' = '-') ∧
    (earth0.getD j ' ' = '@' ∧
        (neighbors earth0 j bounds = 2 ∨ neighbors earth0 j bounds = 3) →
      (simulateLife earth0 earth bounds rs re).getD j ' ' = '@') ∧
    (earth0.getD j ' ' = '-' ∧ neighbors earth0 j bounds = 3 →
      (simulateLife earth0 earth bounds rs re).getD j ' ' = '@') ∧
    (earth0.getD j ' ' = '-' ∧ neighbors earth0 j bounds ≠ 3 →
      (simulateLife earth0 earth bounds rs re).getD j ' ' = '-') := by
  rw [simulateLife_getD_in bounds earth0 earth rs re j hc hj1 hj2 hjlen]
  refine ⟨?_, ?_, ?_, ?_⟩
  · rintro ⟨ha, hn⟩
    unfold transitionCell
    rw [change_of_live_kill ha hn, if_pos (rfl : (-1 : Int) = -1)]
  · rintro ⟨ha, hn⟩
    have h1 : ¬ neighbors earth0 j bounds ≤ 1 := by omega
    have h2 : ¬ 4 ≤ neighbors earth0 j bounds := by omega
    unfold transitionCell
    rw [change_of_live_keep ha h1 h2,
      if_neg (by decide : ¬ (0 : Int) = -1),
      if_neg (by decide : ¬ (0 : Int) = -2), ha]
  · rintro ⟨ha, hn⟩
    unfold transitionCell
    rw [change_of_dead ha, if_pos hn,
      if_neg (by decide : ¬ (-2 : Int) = -1), if_pos (rfl : (-2 : Int) = -2)]
  · rintro ⟨ha, hn⟩
    unfold transitionCell
    rw [change_of_dead ha, if_neg hn,
      if_neg (by decide : ¬ (0 : Int) = -1),
      if_neg (by decide : ¬ (0 : Int) = -2), ha]

/-- C3 witness: the transition rules instantiated on the blinker grid at the
center cell 12 (alive, `n = 2`, stays alive). -/
theorem simulateLife_transition_witness :
    1 ≤ blinkBounds.num_cols ∧ 2 * blinkBounds.num_cols ≤ 12 ∧
    12 < (2 + 1) * blinkBounds.num_cols ∧ 12 < blinkEarth.length ∧
    (blinkEarth.getD 12 ' ' = '@' ∧
      (neighbors blinkEarth 12 blinkBounds = 2 ∨
       neighbors blinkEarth 12 blinkBounds = 3) →
      (simulateLife blinkEarth blinkEarth blinkBounds 2 2).getD 12 ' ' = '@') :=
  ⟨by decide, by decide, by decide, by decide,
   (simulateLife_transition blinkBounds blinkEarth blinkEarth 2 2 12
     (by decide) (by decide) (by decide) (by decide)).2.1⟩

/-- C7: the apply phase of one worker's generation step changes only grid
cells whose linear index lies in the worker's own range
`[row_start·cols, (row_end+1)·cols)`; every cell outside that range is left
exactly as it was, and the buffer length is unchanged. -/
theorem simulateLife_frame (bounds : init_data) (earth0 earth : List Char)
    (rs re j : Nat) (hc : 1 ≤ bounds.num_cols)
    (hj : j < rs * bounds.num_cols ∨ (re + 1) * bounds.num_cols ≤ j) :
    (simulateLife earth0 earth bounds rs re).getD j ' ' = earth.getD j ' ' ∧
    (simulateLife earth0 earth bounds rs re).length = earth.length := by
  refine ⟨?_, simulateLife_length earth0 earth bounds rs re⟩
  by_cases hl : j < earth.length
  · unfold simulateLife
    rw [rangeMap_getD _ _ _ hl]
    have hcond : ¬ (rs * bounds.num_cols ≤ j ∧
        j < re * bounds.num_cols + bounds.num_cols - 1 + 1) := by
      have hmul : (re + 1) * bounds.num_cols =
          re * bounds.num_cols + bounds.num_cols := Nat.succ_mul re _
      rintro ⟨h1, h2⟩
      omega
    rw [if_neg hcond]
  · have h1 : earth.length ≤ j := by omega
    rw [List.getD_eq_default _ _
        (by rw [simulateLife_length]; exact h1),
      List.getD_eq_default _ _ h1]

/-- C7 witness: the frame property instantiated on the blinker grid for the
worker owning rows 2..2, at cell 3 (row 0, outside the range). -/
theorem simulateLife_frame_witness :
    1 ≤ blinkBounds.num_cols ∧
    (3 < 2 * blinkBounds.num_cols ∨ (2 + 1) * blinkBounds.num_cols ≤ 3) ∧
    ((simulateLife blinkEarth blinkEarth blinkBounds 2 2).getD 3 ' ' =
       blinkEarth.getD 3 ' ' ∧
     (simulateLife blinkEarth blinkEarth blinkBounds 2 2).length =
       blinkEarth.length) :=
  ⟨by decide, by decide,
   simulateLife_frame blinkBounds blinkEarth blinkEarth 2 2 3 (by decide)
     (by decide)⟩

/-- C5: scenario S1, the blinker.  On the 5×5 grid with initial live cells
`{(1,2),(2,2),(3,2)}` (as `(col,row)` pairs), the set of live cells after
generation 1 is exactly `{(2,1),(2,2),(2,3)}` and after generation 2 exactly
`{(1,2),(2,2),(3,2)}`. -/
theorem blinker_scenario :
    (∀ col, col < 5 → ∀ row, row < 5 →
      ((runGol blinkBounds 1 blinkEarth 1).getD (5 * row + col) ' ' = '@' ↔
        ((col, row) = ((2 : Nat), (1 : Nat)) ∨ (col, row) = (2, 2) ∨
         (col, row) = (2, 3)))) ∧
    (∀ col, col < 5 → ∀ row, row < 5 →
      ((runGol blinkBounds 1 blinkEarth 2).getD (5 * row + col) ' ' = '@' ↔
        ((col, row) = ((1 : Nat), (2 : Nat)) ∨ (col, row) = (2, 2) ∨
         (col, row) = (3, 2)))) := by
  decide

/-- C5 witness: the blinker theorem applied at cell `(2,1)` after
generation 1. -/
theorem blinker_scenario_witness :
    2 < 5 ∧ 1 < 5 ∧
    ((runGol blinkBounds 1 blinkEarth 1).getD (5 * 1 + 2) ' ' = '@' ↔
      (((2 : Nat), (1 : Nat)) = ((2 : Nat), (1 : Nat)) ∨
       ((2 : Nat), (1 : Nat)) = (2, 2) ∨ ((2 : Nat), (1 : Nat)) = (2, 3))) :=
  ⟨by decide, by decide, blinker_scenario.1 2 (by decide) 1 (by decide)⟩

/-- C6: when `iterations = 0`, the simulation leaves the grid exactly as
initialized and the reporter `printEarth` is never invoked (the iteration
loop of `threadFunc` does not run). -/
theorem zero_iterations_frame (bounds : init_data) (W : Nat)
    (earth : List Char) (verbose : Bool) (h : bounds.iterations = 0) :
    runGol bounds W earth bounds.iterations = earth ∧
    printEarthCalls bounds W earth verbose = [] := by
  constructor
  · rw [h]
    rfl
  · unfold printEarthCalls
    rw [h]
    cases verbose <;> simp

/-- C6 witness: zero iterations on a 3×3 configuration. -/
theorem zero_iterations_frame_witness :
    (init_data.mk 3 3 0 0).iterations = 0 ∧
    (runGol (init_data.mk 3 3 0 0) 1 (initEarth (init_data.mk 3 3 0 0) [])
        (init_data.mk 3 3 0 0).iterations =
      initEarth (init_data.mk 3 3 0 0) [] ∧
     printEarthCalls (init_data.mk 3 3 0 0) 1
        (initEarth (init_data.mk 3 3 0 0) []) true = []) :=
  ⟨by decide,
   zero_iterations_frame (init_data.mk 3 3 0 0) 1
     (initEarth (init_data.mk 3 3 0 0) []) true (by decide)⟩

/-- C8 counterexample: the partition diagnostic of `threadFunc` prints
`row_end - row_start` as its fourth field, not the range size
`row_end - row_start + 1` the claim states: at `rows = 10`, `W = 3`,
`tid = 0` the code prints `(0, 0, 3, 3)`, while the claim asserts the fourth
field is `4`. -/
theorem threadDiag_counterexample :
    threadDiag 10 3 0 ≠
      (0, row_start 10 3 0, row_end 10 3 0,
       row_end 10 3 0 - row_start 10 3 0 + 1) := by
  decide

/-- C8 (amended): when the partition diagnostic is enabled, each worker emits
its `tid`, `start_row`, `end_row`, and `end_row - start_row` — which is the
size of its range minus one, not the size itself. -/
theorem threadDiag_fields (rows W tid : Nat)
    (hW : 1 ≤ W) (hWr : W ≤ rows) :
    threadDiag rows W tid =
      (tid, row_start rows W tid, row_end rows W tid,
       rangeSize rows W tid - 1) ∧
    (threadDiag rows W tid).2.2.2 + 1 = rangeSize rows W tid := by
  have hq : 1 ≤ rows / W := one_le_div hW hWr
  have hle := row_start_le_row_end hq tid
  unfold threadDiag rangeSize
  refine ⟨?_, ?_⟩
  · refine Prod.ext rfl (Prod.ext rfl (Prod.ext rfl ?_))
    show row_end rows W tid - row_start rows W tid =
      row_end rows W tid - row_start rows W tid + 1 - 1
    omega
  · show row_end rows W tid - row_start rows W tid + 1 = _
    omega

/-- C8 witness: the amended diagnostic statement at `rows = 10`, `W = 3`,
`tid = 0`. -/
theorem threadDiag_fields_witness :
    1 ≤ 3 ∧ 3 ≤ 10 ∧
    (threadDiag 10 3 0 =
      (0, row_start 10 3 0, row_end 10 3 0, rangeSize 10 3 0 - 1) ∧
     (threadDiag 10 3 0).2.2.2 + 1 = rangeSize 10 3 0) :=
  ⟨by decide, by decide, threadDiag_fields 10 3 0 (by decide) (by decide)⟩

/-- C9 counterexample: `initEarth` performs no validation of the coordinate
pairs.  With a 2×2 grid and the out-of-range pair `(5,5)` the initializer
returns an ordinary fully-dead grid (the out-of-bounds write at linear index
`num_cols·row + col = 15` falls outside the buffer) and the simulation
proceeds on it, instead of failing with a `ConfigInvalid` error. -/
theorem initEarth_accepts_out_of_range :
    initEarth ⟨2, 2, 1, 1⟩ [(5, 5)] = List.replicate 4 '-' ∧
    runGol ⟨2, 2, 1, 1⟩ 1 (initEarth ⟨2, 2, 1, 1⟩ [(5, 5)]) 1 =
      List.replicate 4 '-' := by
  decide

/-- C9 (amended): `initEarth` rejects nothing: for every configuration and
every list of coordinate pairs — in range or not — it returns a grid of the
full `rows·cols` size and the simulation proceeds on it.  (In the C code an
out-of-range pair writes outside the allocated buffer; the list model renders
that write as a no-op.) -/
theorem initEarth_total (bounds : init_data) (pairs : List (Nat × Nat)) :
    (initEarth bounds pairs).length = bounds.num_rows * bounds.num_cols := by
  unfold initEarth
  have hfold : ∀ (l : List (Nat × Nat)) (e : List Char),
      (l.foldl (fun e p => e.set (bounds.num_cols * p.2 + p.1) '@') e).length =
        e.length := by
    intro l
    induction l with
    | nil => intro e; rfl
    | cons a l ih => intro e; rw [List.foldl_cons, ih, List.length_set]
  rw [hfold, List.length_replicate]

end Gol
